import Mathlib

/-!
Shallow embedding of the telegraf `nfsclient` input plugin
(`plugins/inputs/nfsclient/nfsclient.go`): the numeric converter
(`convertToUint64`), the stat classifier (`parseStat`), the mountstats
scanner (`processText`) and the operation-table construction from `Init`.

Modelling conventions:
* Go `uint64` values are `Nat` together with explicit `% 2^64` wraparound
  where Go arithmetic can overflow (`u64sub`, `u64add`); `strconv.ParseUint`
  is modelled digit by digit with Go's cutoff checks.
* A Go runtime panic (out-of-range slice index) is `PResult.panic`; a Go
  `error` return value is `PResult.err` carrying the message prefix.
* Go maps used as metric field/tag sets are insertion-ordered association
  lists with overwriting update (`setKV`); telegraf's accumulator copies
  maps on `AddFields`, so each emitted `Metric` snapshots them.
* Compiled mount regexes are abstract predicates `String → Bool`; the
  `regexp` package itself is an external collaborator.
* The `float64` value `rtt_per_op = float64(nline[6])/float64(nline[0])` is
  modelled as the exact rational quotient `mkRat nline[6] nline[0]`; at all
  concrete points used below the Go double division is exact.
-/

set_option maxHeartbeats 1000000

instance {ε α : Type} [DecidableEq ε] [DecidableEq α] : DecidableEq (Except ε α) := fun x y =>
  match x, y with
  | .ok a, .ok b =>
    if h : a = b then .isTrue (by rw [h]) else .isFalse (by simp [h])
  | .error a, .error b =>
    if h : a = b then .isTrue (by rw [h]) else .isFalse (by simp [h])
  | .ok _, .error _ => .isFalse (by simp)
  | .error _, .ok _ => .isFalse (by simp)

/-- Maximum value of a Go `uint64`. -/
def U64Max : Nat := 18446744073709551615

/-- Go's `strconv` cutoff for base 10, bit size 64: `maxUint64/10 + 1`. -/
def u64cutoff : Nat := 1844674407370955162

/-- Error classes of `strconv.ParseUint`. -/
inductive NumErr where
  | malformed : NumErr
  | rangeErr : NumErr
deriving DecidableEq, Repr

/-- The digit loop of Go's `strconv.ParseUint` (base 10, bitSize 64):
a non-digit character is a syntax error; exceeding the cutoff before a
multiply, or exceeding `U64Max` after adding a digit, is a range error. -/
def parseUintGo : List Char → Nat → Except NumErr Nat
  | [], n => .ok n
  | c :: cs, n =>
    if c.isDigit then
      if u64cutoff ≤ n then .error .rangeErr
      else
        let n1 := n * 10 + (c.toNat - 48)
        if U64Max < n1 then .error .rangeErr
        else parseUintGo cs n1
    else .error .malformed

/-- Go `strconv.ParseUint(s, 10, 64)`: empty input is a syntax error. -/
def parseUint64 (s : String) : Except NumErr Nat :=
  match s.data with
  | [] => .error .malformed
  | cs => parseUintGo cs 0

/-- One token of `convertToUint64`: a range error aborts with the
`errrange` message; any other parse failure keeps the zero value Go's
`ParseUint` returned. -/
def convertVal (s : String) : Except String Nat :=
  match parseUint64 s with
  | .ok v => .ok v
  | .error .malformed => .ok 0
  | .error .rangeErr => .error "errrange"

/-- The loop of `convertToUint64` over the fields after the first. -/
def convertList : List String → Except String (List Nat)
  | [] => .ok []
  | s :: ss =>
    match convertVal s with
    | .error e => .error e
    | .ok v =>
      match convertList ss with
      | .error e => .error e
      | .ok vs => .ok (v :: vs)

/-- `convertToUint64` from nfsclient.go: input shorter than 2 tokens yields
an empty result (not an error); otherwise the first token is skipped and the
rest are converted. -/
def convertToUint64 (line : List String) : Except String (List Nat) :=
  if line.length < 2 then .ok []
  else convertList (line.drop 1)

/-- Positional list access, `some` inside bounds and `none` outside;
`none` at a use site models a Go index-out-of-range panic. -/
def nth? {α : Type} : List α → Nat → Option α
  | [], _ => none
  | v :: _, 0 => some v
  | _ :: vs, n + 1 => nth? vs n

/-- A metric field value: a `uint64` counter or the `float64` ratio
`rtt_per_op` (modelled as a rational). -/
inductive FVal where
  | u : Nat → FVal
  | q : ℚ → FVal
deriving DecidableEq, Repr

/-- Insertion-ordered association list standing in for a Go map. -/
def setKV {α : Type} (fs : List (String × α)) (k : String) (v : α) : List (String × α) :=
  if fs.any (fun p => p.1 == k) then fs.map (fun p => if p.1 == k then (k, v) else p)
  else fs ++ [(k, v)]

/-- Lookup in an association list (first matching key). -/
def getKV {α : Type} (k : String) : List (String × α) → Option α
  | [] => none
  | (k', v) :: r => if k' == k then some v else getKV k r

abbrev Fields := List (String × FVal)

abbrev Tags := List (String × String)

/-- One emitted metric record: measurement name, tag map, field map. -/
structure Metric where
  name : String
  tags : Tags
  fields : Fields
deriving DecidableEq, Repr

/-- Result of running a piece of Go code: a runtime panic, a returned
`error` (with its message), or a normal result. -/
inductive PResult (α : Type) where
  | panic : PResult α
  | err : String → PResult α
  | ok : α → PResult α
deriving DecidableEq, Repr

/-- Go `uint64` subtraction with wraparound (arguments below `2^64`). -/
def u64sub (a b : Nat) : Nat := (2 ^ 64 + a - b) % 2 ^ 64

/-- Go `uint64` addition with wraparound. -/
def u64add (a b : Nat) : Nat := (a + b) % 2 ^ 64

/-- The 22 NFSv3 operation names from `Init`. -/
def nfs3Fields : List String :=
  ["NULL", "GETATTR", "SETATTR", "LOOKUP", "ACCESS", "READLINK", "READ",
   "WRITE", "CREATE", "MKDIR", "SYMLINK", "MKNOD", "REMOVE", "RMDIR",
   "RENAME", "LINK", "READDIR", "READDIRPLUS", "FSSTAT", "FSINFO",
   "PATHCONF", "COMMIT"]

/-- The 69 NFSv4 operation names from `Init`. -/
def nfs4Fields : List String :=
  ["NULL", "READ", "WRITE", "COMMIT", "OPEN", "OPEN_CONFIRM", "OPEN_NOATTR",
   "OPEN_DOWNGRADE", "CLOSE", "SETATTR", "FSINFO", "RENEW", "SETCLIENTID",
   "SETCLIENTID_CONFIRM", "LOCK", "LOCKT", "LOCKU", "ACCESS", "GETATTR",
   "LOOKUP", "LOOKUP_ROOT", "REMOVE", "RENAME", "LINK", "SYMLINK", "CREATE",
   "PATHCONF", "STATFS", "READLINK", "READDIR", "SERVER_CAPS", "DELEGRETURN",
   "GETACL", "SETACL", "FS_LOCATIONS", "RELEASE_LOCKOWNER", "SECINFO",
   "FSID_PRESENT", "EXCHANGE_ID", "CREATE_SESSION", "DESTROY_SESSION",
   "SEQUENCE", "GET_LEASE_TIME", "RECLAIM_COMPLETE", "LAYOUTGET",
   "GETDEVICEINFO", "LAYOUTCOMMIT", "LAYOUTRETURN", "SECINFO_NO_NAME",
   "TEST_STATEID", "FREE_STATEID", "GETDEVICELIST", "BIND_CONN_TO_SESSION",
   "DESTROY_CLIENTID", "SEEK", "ALLOCATE", "DEALLOCATE", "LAYOUTSTATS",
   "CLONE", "COPY", "OFFLOAD_CANCEL", "LOOKUPP", "LAYOUTERROR",
   "COPY_NOTIFY", "GETXATTR", "SETXATTR", "LISTXATTRS", "REMOVEXATTR"]

/-- Operation-table construction from `Init`: defaults are used only when
the include list is empty; excluded names are then removed.  The include
list is NOT intersected with the version vocabulary. -/
def initOps (defaults includeOps excludeOps : List String) : List String :=
  (if includeOps.length = 0 then defaults else includeOps).filter
    (fun op => !(excludeOps.contains op))

/-- The plugin state relevant to the parsing core: the `fullstat` flag,
the compiled mount include/exclude matchers, and the two operation tables
built by `Init`. -/
structure NFSClient where
  fullstat : Bool
  includeMountRegex : List (String → Bool)
  excludeMountRegex : List (String → Bool)
  nfs3Ops : List String
  nfs4Ops : List String

/-- The 27 `events` counter names from `parseStat`. -/
def eventsFields : List String :=
  ["inoderevalidates", "dentryrevalidates", "datainvalidates",
   "attrinvalidates", "vfsopen", "vfslookup", "vfsaccess", "vfsupdatepage",
   "vfsreadpage", "vfsreadpages", "vfswritepage", "vfswritepages",
   "vfsgetdents", "vfssetattr", "vfsflush", "vfsfsync", "vfslock",
   "vfsrelease", "congestionwait", "setattrtrunc", "extendwrite",
   "sillyrenames", "shortreads", "shortwrites", "delay", "pnfsreads",
   "pnfswrites"]

/-- The 8 `bytes` counter names from `parseStat`. -/
def bytesFields : List String :=
  ["normalreadbytes", "normalwritebytes", "directreadbytes",
   "directwritebytes", "serverreadbytes", "serverwritebytes", "readpages",
   "writepages"]

/-- The 6 `xprt udp` counter names from `parseStat`. -/
def xprtudpFields : List String :=
  ["bind_count", "rpcsends", "rpcreceives", "badxids", "inflightsends",
   "backlogutil"]

/-- The 9 `xprt tcp` counter names from `parseStat`. -/
def xprttcpFields : List String :=
  ["bind_count", "connect_count", "connect_time", "idle_time", "rpcsends",
   "rpcreceives", "badxids", "inflightsends", "backlogutil"]

/-- The 9 per-operation counter names from `parseStat`. -/
def nfsopFields : List String :=
  ["ops", "trans", "timeouts", "bytes_sent", "bytes_recv", "queue_time",
   "response_time", "total_time", "errors"]

/-- `strings.Replace(s, ":", "", 1)` on the character list. -/
def replaceFirstColon : List Char → List Char
  | [] => []
  | c :: cs => if c = ':' then cs else c :: replaceFirstColon cs

/-- The `first` variable of `parseStat`: the leading token with its first
colon removed. -/
def firstField (s : String) : String := ⟨replaceFirstColon s.data⟩

/-- The `first` variable computed from a whole line (`line[0]` with the
first colon removed; the empty-line case is unreachable because the caller
checks `len(nline) > 0` first). -/
def firstOf (line : List String) : String := firstField (line.headD "")

/-- The `READ`/`WRITE` switch case of `parseStat`.  The six accesses
`nline[0] nline[1] nline[3] nline[4] nline[6] nline[7]` happen in order
and are unguarded: a missing index is a panic (`none`). -/
def basicStep (first : String) (nline : List Nat) (tags : Tags) (fields : Fields) :
    Option (Fields × Tags × List Metric) :=
  if first == "READ" || first == "WRITE" then
    match nth? nline 0 with
    | none => none
    | some v0 =>
      match nth? nline 1 with
      | none => none
      | some v1 =>
        match nth? nline 3 with
        | none => none
        | some v3 =>
          match nth? nline 4 with
          | none => none
          | some v4 =>
            match nth? nline 6 with
            | none => none
            | some v6 =>
              match nth? nline 7 with
              | none => none
              | some v7 =>
                let fs := setKV fields "ops" (.u v0)
                let fs := setKV fs "retrans" (.u (u64sub v1 v0))
                let fs := setKV fs "bytes" (.u (u64add v3 v4))
                let fs := setKV fs "rtt" (.u v6)
                let fs := setKV fs "exe" (.u v7)
                let fs := setKV fs "rtt_per_op"
                  (.q (if 0 < v0 then mkRat v6 v0 else 0))
                let tgs := setKV tags "operation" first
                some (fs, tgs, [⟨"nfsstat", tgs, fs⟩])
  else some (fields, tags, [])

/-- The positional field loops of the `events`/`bytes`/`xprt` cases:
`fields[names[k]] = nline[k + off]`, panicking (`none`) when the access is
out of range. -/
def fillFields (nline : List Nat) (off : Nat) :
    List String → Nat → Fields → Option Fields
  | [], _, fields => some fields
  | t :: ts, i, fields =>
    match nth? nline (i + off) with
    | none => none
    | some v => fillFields nline off ts (i + 1) (setKV fields t (.u v))

/-- The per-operation loop `for i, t := range nline`: it iterates over the
numeric values and indexes `nfsopFields[i]`, panicking if that name access
were out of range. -/
def fillOpFields (names : List String) :
    List Nat → Nat → Fields → Option Fields
  | [], _, fields => some fields
  | v :: vs, i, fields =>
    match nth? names i with
    | none => none
    | some t => fillOpFields names vs (i + 1) (setKV fields t (.u v))

/-- The detailed-mode `events`/`bytes`/`xprt` switch of `parseStat`.
The `xprt` guards compare `len(nline)+2` against the named-field count,
exactly as the source does. -/
def fullSwitch (first : String) (line : List String) (nline : List Nat)
    (tags : Tags) (fields : Fields) : Option (Fields × List Metric) :=
  if first == "events" then
    if eventsFields.length ≤ nline.length then
      match fillFields nline 0 eventsFields 0 fields with
      | none => none
      | some fs => some (fs, [⟨"nfs_events", tags, fs⟩])
    else some (fields, [])
  else if first == "bytes" then
    if bytesFields.length ≤ nline.length then
      match fillFields nline 0 bytesFields 0 fields with
      | none => none
      | some fs => some (fs, [⟨"nfs_bytes", tags, fs⟩])
    else some (fields, [])
  else if first == "xprt" then
    match nth? line 1 with
    | none => some (fields, [])
    | some t =>
      if t == "tcp" then
        if xprttcpFields.length ≤ nline.length + 2 then
          match fillFields nline 2 xprttcpFields 0 fields with
          | none => none
          | some fs => some (fs, [⟨"nfs_xprt_tcp", tags, fs⟩])
        else some (fields, [])
      else if t == "udp" then
        if xprtudpFields.length ≤ nline.length + 2 then
          match fillFields nline 2 xprtudpFields 0 fields with
          | none => none
          | some fs => some (fs, [⟨"nfs_xprt_udp", tags, fs⟩])
        else some (fields, [])
      else some (fields, [])
  else some (fields, [])

/-- The tracked-operation branch of `parseStat`: consults the per-version
operation table, sets the `operation` tag, and emits the positional
per-operation fields only when `len(nline) ≤ len(nfsopFields)`. -/
def opsStep (n : NFSClient) (version first : String) (nline : List Nat)
    (tags : Tags) (fields : Fields) : Option (List Metric) :=
  if (version == "3" && n.nfs3Ops.contains first) ||
     (version == "4" && n.nfs4Ops.contains first) then
    let tgs := setKV tags "operation" first
    if nline.length ≤ nfsopFields.length then
      match fillOpFields nfsopFields nline 0 fields with
      | none => none
      | some fs => some [⟨"nfs_ops", tgs, fs⟩]
    else some []
  else some []

/-- `parseStat` from nfsclient.go: convert the numeric fields (a range
error propagates as a Go error), return early on an empty result, then run
the basic switch, the detailed-mode switch, and the tracked-operation
branch over one shared field map. -/
def parseStat (n : NFSClient) (mountpoint serverExport version : String)
    (line : List String) : PResult (List Metric) :=
  let tags : Tags := [("mountpoint", mountpoint), ("serverexport", serverExport)]
  match convertToUint64 line with
  | .error e => .err e
  | .ok nline =>
    if nline.length = 0 then .ok []
    else
      let first := firstOf line
      match basicStep first nline tags [] with
      | none => .panic
      | some (fs, tgs, ms1) =>
        if n.fullstat then
          match fullSwitch first line nline tgs fs with
          | none => .panic
          | some (fs2, ms2) =>
            match opsStep n version first nline tgs fs2 with
            | none => .panic
            | some ms3 => .ok (ms1 ++ ms2 ++ ms3)
        else .ok ms1

/-- Splitting a character list at every separator, keeping empty pieces —
the semantics of Go's `strings.Split`. -/
def splitCharsAux (p : Char → Bool) : List Char → List Char → List String
  | [], acc => [⟨acc.reverse⟩]
  | c :: cs, acc =>
    if p c then ⟨acc.reverse⟩ :: splitCharsAux p cs []
    else splitCharsAux p cs (c :: acc)

/-- Split a string at every character satisfying `p`, keeping empties. -/
def splitStr (p : Char → Bool) (s : String) : List String :=
  splitCharsAux p s.data []

/-- `strings.Fields`: split on whitespace, dropping empty pieces. -/
def strFields (s : String) : List String :=
  (splitStr Char.isWhitespace s).filter (fun t => t ≠ "")

/-- Block-start detection from `processText`: more than 4 tokens,
containing `fstype` and `nfs` or `nfs4`. -/
def isBlockStart (line : List String) : Bool :=
  4 < line.length && line.contains "fstype" &&
    (line.contains "nfs" || line.contains "nfs4")

/-- Version-line detection from `processText`: more than 5 tokens,
containing `(nfs)` or `(nfs4)`. -/
def isVersionLine (line : List String) : Bool :=
  5 < line.length && (line.contains "(nfs)" || line.contains "(nfs4)")

/-- Scanner state: the current mount point, server export and version. -/
structure ScanState where
  mount : String
  serverExport : String
  version : String
deriving DecidableEq, Repr

/-- The state update at the head of the scanner loop: a block-start line
sets mount (token 4) and export (token 1); otherwise a version line splits
token 5 on `/` and takes element 1 — a panic (`none`) when that element
does not exist. -/
def updateState (st : ScanState) (line : List String) : Option ScanState :=
  if isBlockStart line then
    some { st with mount := line.getD 4 "", serverExport := line.getD 1 "" }
  else if isVersionLine line then
    match nth? (splitStr (fun c => c == '/') (line.getD 5 "")) 1 with
    | none => none
    | some v => some { st with version := v }
  else some st

/-- The per-line mount filter of `processText`: skip when include patterns
exist and none matches; otherwise skip when some exclude pattern matches. -/
def lineSkip (n : NFSClient) (mount : String) : Bool :=
  if 0 < n.includeMountRegex.length &&
      !(n.includeMountRegex.any (fun r => r mount)) then true
  else n.excludeMountRegex.any (fun r => r mount)

/-- The scanner loop of `processText`, one constructor per line: tokenize,
skip empty lines, update the block state, discard lines while the mount is
empty, apply the mount filter, and otherwise run `parseStat`, whose error
aborts the scan wrapped in `could not parseStat: `. -/
def processFrom (n : NFSClient) : List String → ScanState → PResult (List Metric)
  | [], _ => .ok []
  | ℓ :: rest, st =>
    let line := strFields ℓ
    if line.isEmpty then processFrom n rest st
    else
      match updateState st line with
      | none => .panic
      | some st' =>
        if st'.mount = "" then processFrom n rest st'
        else if lineSkip n st'.mount then processFrom n rest st'
        else
          match parseStat n st'.mount st'.serverExport st'.version line with
          | .panic => .panic
          | .err e => .err ("could not parseStat: " ++ e)
          | .ok ms =>
            match processFrom n rest st' with
            | .panic => .panic
            | .err e => .err e
            | .ok ms' => .ok (ms ++ ms')

/-- `processText`: scan all lines starting from the empty state. -/
def processText (n : NFSClient) (lines : List String) : PResult (List Metric) :=
  processFrom n lines ⟨"", "", ""⟩

/-- A configuration with detailed statistics off, no mount filters and the
default operation tables. -/
def cfgBasic : NFSClient :=
  ⟨false, [], [], initOps nfs3Fields [] [], initOps nfs4Fields [] []⟩

/-- A configuration with detailed statistics on, no mount filters and the
default operation tables. -/
def cfgFull : NFSClient :=
  ⟨true, [], [], initOps nfs3Fields [] [], initOps nfs4Fields [] []⟩

def cfgFiltered : NFSClient :=
  ⟨false, [fun s => s == "/keep"], [fun s => s == "/bad"],
   initOps nfs3Fields [] [], initOps nfs4Fields [] []⟩

def c2lines : List String :=
  ["device /export mounted on /mnt with fstype nfs statvers=1.1",
   "RPC iostats version: 1.1 p/v: rpc/3 (nfs)",
   "READ 10 10 0 100 0 50 5 0"]

def c2metric : Metric :=
  ⟨"nfsstat",
   [("mountpoint", "/mnt"), ("serverexport", "/export"), ("operation", "READ")],
   [("ops", .u 10), ("retrans", .u 0), ("bytes", .u 100), ("rtt", .u 5),
    ("exe", .u 0), ("rtt_per_op", .q (mkRat 1 2))]⟩

theorem nth?_eq_none {α : Type} (l : List α) (i : Nat) (h : l.length ≤ i) :
    nth? l i = none := by
  induction l generalizing i with
  | nil => cases i <;> rfl
  | cons x xs ih =>
    cases i with
    | zero => simp at h
    | succ j => exact ih j (by simpa using h)

theorem nth?_isSome {α : Type} (l : List α) (i : Nat) (h : i < l.length) :
    ∃ v, nth? l i = some v := by
  induction l generalizing i with
  | nil => simp at h
  | cons x xs ih =>
    cases i with
    | zero => exact ⟨x, rfl⟩
    | succ j => exact ih j (by simpa using h)

theorem nth?_mem {α : Type} {l : List α} {i : Nat} {v : α} (h : nth? l i = some v) :
    v ∈ l := by
  induction l generalizing i with
  | nil => simp [nth?] at h
  | cons x xs ih =>
    cases i with
    | zero => simp [nth?] at h; simp [h]
    | succ j => exact List.mem_cons_of_mem _ (ih h)

theorem parseUintGo_le (cs : List Char) (n : Nat) (hn : n ≤ U64Max) :
    ∀ v, parseUintGo cs n = .ok v → v ≤ U64Max := by
  induction cs generalizing n with
  | nil => intro v h; simp [parseUintGo] at h; omega
  | cons c cs ih =>
    intro v h
    simp only [parseUintGo] at h
    split at h
    · split at h
      · exact absurd h (by simp)
      · split at h
        · exact absurd h (by simp)
        · exact ih _ (by omega) v h
    · exact absurd h (by simp)

theorem parseUint64_le (s : String) (v : Nat) (h : parseUint64 s = .ok v) :
    v ≤ U64Max := by
  unfold parseUint64 at h
  split at h
  · exact absurd h (by simp)
  · exact parseUintGo_le _ 0 (by simp [U64Max]) v h

theorem convertVal_le (s : String) (v : Nat) (h : convertVal s = .ok v) :
    v ≤ U64Max := by
  unfold convertVal at h
  split at h
  next v' hv =>
    simp at h
    exact h ▸ parseUint64_le s v' hv
  next => simp at h; omega
  next => exact absurd h (by simp)

theorem convertList_le (ss : List String) (vs : List Nat)
    (h : convertList ss = .ok vs) : ∀ v ∈ vs, v ≤ U64Max := by
  induction ss generalizing vs with
  | nil =>
    injection h with h
    intro v hv
    rw [← h] at hv
    exact nomatch hv
  | cons s ss ih =>
    simp only [convertList] at h
    split at h
    · exact absurd h (by simp)
    next v hv =>
      split at h
      · exact absurd h (by simp)
      next vs' hvs =>
        simp at h
        intro x hx
        rw [← h] at hx
        rcases List.mem_cons.mp hx with rfl | hx'
        · exact convertVal_le s x hv
        · exact ih vs' hvs x hx'

theorem convertToUint64_le (line : List String) (nline : List Nat)
    (h : convertToUint64 line = .ok nline) : ∀ v ∈ nline, v ≤ U64Max := by
  unfold convertToUint64 at h
  split at h
  · injection h with h
    intro v hv
    rw [← h] at hv
    exact nomatch hv
  · exact convertList_le _ _ h

theorem convertList_err_of_range (ss : List String) (tok : String)
    (hmem : tok ∈ ss) (hr : parseUint64 tok = .error .rangeErr) :
    convertList ss = .error "errrange" := by
  induction ss with
  | nil => exact nomatch hmem
  | cons s ss ih =>
    rcases List.mem_cons.mp hmem with rfl | hmem'
    · simp only [convertList, convertVal, hr]
    · simp only [convertList]
      split
      next e he =>
        unfold convertVal at he
        split at he
        · exact absurd he (by simp)
        · exact absurd he (by simp)
        · injection he with he; rw [he]
      · rw [ih hmem']

theorem convertList_ok_of_no_range (ss : List String)
    (hnr : ∀ tok ∈ ss, parseUint64 tok ≠ .error .rangeErr) :
    convertList ss = .ok (ss.map (fun tok =>
      match parseUint64 tok with | .ok v => v | .error _ => 0)) := by
  induction ss with
  | nil => rfl
  | cons s ss ih =>
    have hs : convertVal s = .ok (match parseUint64 s with
        | .ok v => v | .error _ => 0) := by
      unfold convertVal
      split
      next v hv => rw [hv]
      next hv => rw [hv]
      next hv => exact absurd hv (hnr s (List.mem_cons_self s ss))
    simp only [convertList, hs, ih (fun t ht => hnr t (List.mem_cons_of_mem s ht)),
      List.map]

theorem fillFields_none (nline : List Nat) (off : Nat) :
    ∀ (names : List String) (i : Nat) (fields : Fields), names ≠ [] →
      nline.length < i + off + names.length →
      fillFields nline off names i fields = none := by
  intro names
  induction names with
  | nil => intro i fields hne; exact absurd rfl hne
  | cons t ts ih =>
    intro i fields _ hlen
    simp only [fillFields]
    rcases Nat.lt_or_ge (i + off) nline.length with hlt | hge
    · obtain ⟨v, hv⟩ := nth?_isSome nline (i + off) hlt
      rw [hv]
      rcases ts with _ | ⟨t2, ts2⟩
      · simp at hlen; omega
      · exact ih (i + 1) _ (by simp) (by simp at hlen ⊢; omega)
    · rw [nth?_eq_none nline (i + off) hge]

theorem fillFields_isSome (nline : List Nat) (off : Nat) :
    ∀ (names : List String) (i : Nat) (fields : Fields),
      i + off + names.length ≤ nline.length →
      ∃ fs, fillFields nline off names i fields = some fs := by
  intro names
  induction names with
  | nil => intro i fields _; exact ⟨fields, rfl⟩
  | cons t ts ih =>
    intro i fields hlen
    simp only [fillFields]
    obtain ⟨v, hv⟩ := nth?_isSome nline (i + off) (by simp at hlen; omega)
    rw [hv]
    exact ih (i + 1) _ (by simp at hlen ⊢; omega)

theorem fillOpFields_isSome (names : List String) :
    ∀ (vs : List Nat) (i : Nat) (fields : Fields),
      i + vs.length ≤ names.length →
      ∃ fs, fillOpFields names vs i fields = some fs := by
  intro vs
  induction vs with
  | nil => intro i fields _; exact ⟨fields, rfl⟩
  | cons v vs ih =>
    intro i fields hlen
    simp only [fillOpFields]
    obtain ⟨t, ht⟩ := nth?_isSome names i (by simp at hlen; omega)
    rw [ht]
    exact ih (i + 1) _ (by simp at hlen ⊢; omega)

theorem opsStep_shape (n : NFSClient) (version first : String) (nline : List Nat)
    (tags : Tags) (fields : Fields) :
    ∃ ms, opsStep n version first nline tags fields = some ms ∧
      ∀ m ∈ ms, m.name = "nfs_ops" := by
  unfold opsStep
  split
  · split
    next hlen =>
      obtain ⟨fs, hfs⟩ := fillOpFields_isSome nfsopFields nline 0 fields
        (by simpa using hlen)
      rw [hfs]
      exact ⟨_, rfl, by intro m hm; simp at hm; rw [hm]⟩
    · exact ⟨[], rfl, by intro m hm; exact nomatch hm⟩
  · exact ⟨[], rfl, by intro m hm; exact nomatch hm⟩

theorem basicStep_other (first : String) (nline : List Nat) (tags : Tags)
    (fields : Fields) (h1 : first ≠ "READ") (h2 : first ≠ "WRITE") :
    basicStep first nline tags fields = some (fields, tags, []) := by
  unfold basicStep
  rw [if_neg]
  simp [h1, h2]

theorem basicStep_panic (first : String) (nline : List Nat) (tags : Tags)
    (fields : Fields) (hf : first = "READ" ∨ first = "WRITE")
    (hne : nline ≠ []) (hlen : nline.length < 8) :
    basicStep first nline tags fields = none := by
  have hif : (first == "READ" || first == "WRITE") = true := by
    rcases hf with rfl | rfl <;> simp
  unfold basicStep
  rw [if_pos hif]
  rcases nline with _ | ⟨v0, nl⟩
  · exact absurd rfl hne
  · show (match nth? (v0 :: nl) 1 with
      | none => none
      | some v1 => _) = none
    have h7 : nth? (v0 :: nl) 7 = none :=
      nth?_eq_none _ 7 (by omega)
    rcases h1 : nth? (v0 :: nl) 1 with _ | v1
    · rfl
    rcases h3 : nth? (v0 :: nl) 3 with _ | v3
    · rfl
    rcases h4 : nth? (v0 :: nl) 4 with _ | v4
    · rfl
    rcases h6 : nth? (v0 :: nl) 6 with _ | v6
    · rfl
    rw [h7]

theorem basicStep_eq (first : String) (nline : List Nat) (tags : Tags)
    (fields : Fields) (v0 v1 v3 v4 v6 v7 : Nat)
    (hf : (first == "READ" || first == "WRITE") = true)
    (h0 : nth? nline 0 = some v0) (h1 : nth? nline 1 = some v1)
    (h3 : nth? nline 3 = some v3) (h4 : nth? nline 4 = some v4)
    (h6 : nth? nline 6 = some v6) (h7 : nth? nline 7 = some v7) :
    basicStep first nline tags fields =
      some (setKV (setKV (setKV (setKV (setKV (setKV fields "ops" (.u v0))
          "retrans" (.u (u64sub v1 v0))) "bytes" (.u (u64add v3 v4)))
          "rtt" (.u v6)) "exe" (.u v7))
          "rtt_per_op" (.q (if 0 < v0 then mkRat v6 v0 else 0)),
        setKV tags "operation" first,
        [⟨"nfsstat", setKV tags "operation" first,
          setKV (setKV (setKV (setKV (setKV (setKV fields "ops" (.u v0))
            "retrans" (.u (u64sub v1 v0))) "bytes" (.u (u64add v3 v4)))
            "rtt" (.u v6)) "exe" (.u v7))
            "rtt_per_op" (.q (if 0 < v0 then mkRat v6 v0 else 0))⟩]) := by
  unfold basicStep
  rw [if_pos hf, h0, h1, h3, h4, h6, h7]

theorem parseStat_ne_err (n : NFSClient) (mp ex v : String) (line : List String)
    (nline : List Nat) (hconv : convertToUint64 line = .ok nline) :
    ∀ s, parseStat n mp ex v line ≠ .err s := by
  intro s
  unfold parseStat
  rw [hconv]
  dsimp only
  by_cases h0 : nline.length = 0
  · rw [if_pos h0]; simp
  · rw [if_neg h0]
    split
    · simp
    · by_cases hf : n.fullstat = true
      · rw [if_pos hf]
        split
        · simp
        · split
          · simp
          · simp
      · rw [if_neg hf]
        simp

theorem fullSwitch_events_skip (line : List String) (nline : List Nat)
    (tags : Tags) (fields : Fields) (hlen : nline.length < 27) :
    fullSwitch "events" line nline tags fields = some (fields, []) := by
  unfold fullSwitch
  rw [if_pos (show (("events" : String) == "events") = true from rfl),
    if_neg (show ¬(eventsFields.length ≤ nline.length) from by
      rw [show eventsFields.length = 27 from rfl]; omega)]

theorem fullSwitch_bytes_skip (line : List String) (nline : List Nat)
    (tags : Tags) (fields : Fields) (hlen : nline.length < 8) :
    fullSwitch "bytes" line nline tags fields = some (fields, []) := by
  unfold fullSwitch
  rw [if_neg (show ¬((("bytes" : String) == "events") = true) from by decide),
    if_pos (show (("bytes" : String) == "bytes") = true from rfl),
    if_neg (show ¬(bytesFields.length ≤ nline.length) from by
      rw [show bytesFields.length = 8 from rfl]; omega)]

theorem fullSwitch_other (first : String) (line : List String) (nline : List Nat)
    (tags : Tags) (fields : Fields) (h1 : first ≠ "events") (h2 : first ≠ "bytes")
    (h3 : first ≠ "xprt") :
    fullSwitch first line nline tags fields = some (fields, []) := by
  unfold fullSwitch
  rw [if_neg (show ¬((first == "events") = true) from by simp [h1]),
    if_neg (show ¬((first == "bytes") = true) from by simp [h2]),
    if_neg (show ¬((first == "xprt") = true) from by simp [h3])]

theorem fullSwitch_xprt_tcp_skip (line : List String) (nline : List Nat)
    (tags : Tags) (fields : Fields) (ht : nth? line 1 = some "tcp")
    (hlen : nline.length + 2 < 9) :
    fullSwitch "xprt" line nline tags fields = some (fields, []) := by
  unfold fullSwitch
  rw [if_neg (show ¬((("xprt" : String) == "events") = true) from by decide),
    if_neg (show ¬((("xprt" : String) == "bytes") = true) from by decide),
    if_pos (show (("xprt" : String) == "xprt") = true from rfl), ht]
  dsimp only
  rw [if_pos (show (("tcp" : String) == "tcp") = true from rfl),
    if_neg (show ¬(xprttcpFields.length ≤ nline.length + 2) from by
      rw [show xprttcpFields.length = 9 from rfl]; omega)]

theorem fullSwitch_xprt_udp_skip (line : List String) (nline : List Nat)
    (tags : Tags) (fields : Fields) (ht : nth? line 1 = some "udp")
    (hlen : nline.length + 2 < 6) :
    fullSwitch "xprt" line nline tags fields = some (fields, []) := by
  unfold fullSwitch
  rw [if_neg (show ¬((("xprt" : String) == "events") = true) from by decide),
    if_neg (show ¬((("xprt" : String) == "bytes") = true) from by decide),
    if_pos (show (("xprt" : String) == "xprt") = true from rfl), ht]
  dsimp only
  rw [if_neg (show ¬((("udp" : String) == "tcp") = true) from by decide),
    if_pos (show (("udp" : String) == "udp") = true from rfl),
    if_neg (show ¬(xprtudpFields.length ≤ nline.length + 2) from by
      rw [show xprtudpFields.length = 6 from rfl]; omega)]

theorem fullSwitch_xprt_tcp_panic (line : List String) (nline : List Nat)
    (tags : Tags) (fields : Fields) (ht : nth? line 1 = some "tcp")
    (hg : 9 ≤ nline.length + 2) (hlen : nline.length < 11) :
    fullSwitch "xprt" line nline tags fields = none := by
  unfold fullSwitch
  rw [if_neg (show ¬((("xprt" : String) == "events") = true) from by decide),
    if_neg (show ¬((("xprt" : String) == "bytes") = true) from by decide),
    if_pos (show (("xprt" : String) == "xprt") = true from rfl), ht]
  dsimp only
  rw [if_pos (show (("tcp" : String) == "tcp") = true from rfl),
    if_pos (show xprttcpFields.length ≤ nline.length + 2 from by
      rw [show xprttcpFields.length = 9 from rfl]; omega),
    fillFields_none nline 2 xprttcpFields 0 fields (by decide)
      (by rw [show xprttcpFields.length = 9 from rfl]; omega)]

theorem fullSwitch_xprt_udp_panic (line : List String) (nline : List Nat)
    (tags : Tags) (fields : Fields) (ht : nth? line 1 = some "udp")
    (hg : 6 ≤ nline.length + 2) (hlen : nline.length < 8) :
    fullSwitch "xprt" line nline tags fields = none := by
  unfold fullSwitch
  rw [if_neg (show ¬((("xprt" : String) == "events") = true) from by decide),
    if_neg (show ¬((("xprt" : String) == "bytes") = true) from by decide),
    if_pos (show (("xprt" : String) == "xprt") = true from rfl), ht]
  dsimp only
  rw [if_neg (show ¬((("udp" : String) == "tcp") = true) from by decide),
    if_pos (show (("udp" : String) == "udp") = true from rfl),
    if_pos (show xprtudpFields.length ≤ nline.length + 2 from by
      rw [show xprtudpFields.length = 6 from rfl]; omega),
    fillFields_none nline 2 xprtudpFields 0 fields (by decide)
      (by rw [show xprtudpFields.length = 6 from rfl]; omega)]

theorem updateState_id (st : ScanState) (line : List String)
    (hb : isBlockStart line = false) (hv : isVersionLine line = false) :
    updateState st line = some st := by
  unfold updateState
  rw [if_neg (by simp [hb]), if_neg (by simp [hv])]

theorem getKV_map_replace {α : Type} (k : String) (v : α)
    (fs : List (String × α)) :
    getKV k (fs.map (fun p => if p.1 == k then (k, v) else p)) =
      if fs.any (fun p => p.1 == k) then some v else none := by
  induction fs with
  | nil => rfl
  | cons p t ih =>
    obtain ⟨k'', w⟩ := p
    rw [List.map_cons, List.any_cons]
    dsimp only
    cases hk : k'' == k with
    | true =>
      rw [if_pos rfl, Bool.true_or]
      simp only [getKV]
      rw [if_pos (beq_self_eq_true k)]
      simp
    | false =>
      rw [if_neg (by simp), Bool.false_or]
      simp only [getKV]
      rw [if_neg (by simp [hk]), ih]

theorem getKV_map_replace_ne {α : Type} (k' k : String) (v : α)
    (fs : List (String × α)) (hsym : (k == k') = false) :
    getKV k' (fs.map (fun p => if p.1 == k then (k, v) else p)) =
      getKV k' fs := by
  induction fs with
  | nil => rfl
  | cons p t ih =>
    obtain ⟨k'', w⟩ := p
    rw [List.map_cons]
    dsimp only
    cases hk : k'' == k with
    | true =>
      rw [if_pos rfl]
      simp only [getKV]
      rw [if_neg (by simp [hsym]),
        if_neg (by rw [eq_of_beq hk]; simp [hsym]), ih]
    | false =>
      rw [if_neg (by simp)]
      simp only [getKV]
      cases hk2 : k'' == k' with
      | true => rw [if_pos rfl, if_pos rfl]
      | false => rw [if_neg (by simp), if_neg (by simp), ih]

theorem getKV_none_of_not_any {α : Type} (k : String) (fs : List (String × α))
    (h : fs.any (fun p => p.1 == k) = false) : getKV k fs = none := by
  induction fs with
  | nil => rfl
  | cons p t ih =>
    obtain ⟨k'', w⟩ := p
    rw [List.any_cons] at h
    dsimp only at h
    rw [Bool.or_eq_false_iff] at h
    simp only [getKV]
    rw [if_neg (by simp [h.1]), ih h.2]

theorem getKV_append_tail {α : Type} (k : String) (fs l2 : List (String × α))
    (h : getKV k fs = none) : getKV k (fs ++ l2) = getKV k l2 := by
  induction fs with
  | nil => rfl
  | cons p t ih =>
    obtain ⟨k'', w⟩ := p
    simp only [getKV] at h
    rw [List.cons_append]
    simp only [getKV]
    split at h
    · exact absurd h (by simp)
    next hcond => rw [if_neg hcond, ih h]

theorem getKV_append_single_ne {α : Type} (k' k : String) (v : α)
    (fs : List (String × α)) (hsym : (k == k') = false) :
    getKV k' (fs ++ [(k, v)]) = getKV k' fs := by
  induction fs with
  | nil =>
    rw [List.nil_append]
    simp only [getKV]
    rw [if_neg (by simp [hsym])]
  | cons p t ih =>
    obtain ⟨k'', w⟩ := p
    rw [List.cons_append]
    simp only [getKV]
    cases hk2 : k'' == k' with
    | true => rw [if_pos rfl, if_pos rfl]
    | false => rw [if_neg (by simp), if_neg (by simp), ih]

theorem getKV_nil {α : Type} (k : String) : getKV k ([] : List (String × α)) = none := rfl

theorem getKV_setKV_same {α : Type} (k : String) (v : α)
    (fs : List (String × α)) : getKV k (setKV fs k v) = some v := by
  simp only [setKV]
  cases hany : fs.any (fun p => p.1 == k) with
  | true =>
    rw [if_pos rfl, getKV_map_replace, hany]
    simp
  | false =>
    rw [if_neg (by simp),
      getKV_append_tail k fs _ (getKV_none_of_not_any k fs hany)]
    simp only [getKV]
    rw [if_pos (beq_self_eq_true k)]

theorem getKV_setKV_ne {α : Type} (k' k : String) (v : α)
    (fs : List (String × α)) (h : (k' == k) = false) :
    getKV k' (setKV fs k v) = getKV k' fs := by
  have hsym : (k == k') = false := by
    cases hkk : k == k' with
    | true =>
      rw [eq_of_beq hkk, beq_self_eq_true] at h
      exact absurd h (by simp)
    | false => rfl
  simp only [setKV]
  cases hany : fs.any (fun p => p.1 == k) with
  | true => rw [if_pos rfl, getKV_map_replace_ne k' k v fs hsym]
  | false => rw [if_neg (by simp), getKV_append_single_ne k' k v fs hsym]

theorem opsStep_8 (n : NFSClient) (version first : String) (tags : Tags)
    (fields : Fields) (a b c d e f g h : Nat)
    (hcond : ((version == "3") && n.nfs3Ops.contains first ||
              (version == "4") && n.nfs4Ops.contains first) = true) :
    opsStep n version first [a, b, c, d, e, f, g, h] tags fields =
      some [⟨"nfs_ops", setKV tags "operation" first,
        setKV (setKV (setKV (setKV (setKV (setKV (setKV (setKV fields
          "ops" (.u a)) "trans" (.u b)) "timeouts" (.u c)) "bytes_sent" (.u d))
          "bytes_recv" (.u e)) "queue_time" (.u f)) "response_time" (.u g))
          "total_time" (.u h)⟩] := by
  unfold opsStep
  rw [if_pos hcond, if_pos (by simp [nfsopFields])]
  rfl

theorem opsStep_9 (n : NFSClient) (version first : String) (tags : Tags)
    (fields : Fields) (a b c d e f g h i : Nat)
    (hcond : ((version == "3") && n.nfs3Ops.contains first ||
              (version == "4") && n.nfs4Ops.contains first) = true) :
    opsStep n version first [a, b, c, d, e, f, g, h, i] tags fields =
      some [⟨"nfs_ops", setKV tags "operation" first,
        setKV (setKV (setKV (setKV (setKV (setKV (setKV (setKV (setKV fields
          "ops" (.u a)) "trans" (.u b)) "timeouts" (.u c)) "bytes_sent" (.u d))
          "bytes_recv" (.u e)) "queue_time" (.u f)) "response_time" (.u g))
          "total_time" (.u h)) "errors" (.u i)⟩] := by
  unfold opsStep
  rw [if_pos hcond, if_pos (by simp [nfsopFields])]
  rfl

/-- C1 (amended): lines with too few numeric fields for the `events` and
`bytes` categories skip that category's emission and `parseStat` returns
normally, as do `xprt` lines failing the guard; but `READ`/`WRITE` lines
with fewer than 8 numeric fields, and `xprt` tcp/udp lines that pass the
reversed guard `named-count ≤ len(nline)+2` while having fewer than
`named-count + 2` numeric fields, hit an out-of-range access (panic). -/
theorem c1_insufficient_fields (n : NFSClient) (mp ex v : String) (line : List String)
    (nline : List Nat)
    (hconv : convertToUint64 line = .ok nline) (hne : nline ≠ []) :
    (((firstOf line = "events" ∧ nline.length < eventsFields.length) ∨
      (firstOf line = "bytes" ∧ nline.length < bytesFields.length)) →
      ∃ ms, parseStat n mp ex v line = .ok ms ∧
        ∀ m ∈ ms, m.name ≠ "nfs_events" ∧ m.name ≠ "nfs_bytes") ∧
    (firstOf line = "xprt" →
      ((nth? line 1 = some "tcp" ∧ nline.length + 2 < xprttcpFields.length) ∨
       (nth? line 1 = some "udp" ∧ nline.length + 2 < xprtudpFields.length)) →
      ∃ ms, parseStat n mp ex v line = .ok ms ∧
        ∀ m ∈ ms, m.name ≠ "nfs_xprt_tcp" ∧ m.name ≠ "nfs_xprt_udp") ∧
    ((firstOf line = "READ" ∨ firstOf line = "WRITE") →
      nline.length < 8 → parseStat n mp ex v line = .panic) ∧
    (n.fullstat = true → firstOf line = "xprt" →
      ((nth? line 1 = some "tcp" ∧ xprttcpFields.length ≤ nline.length + 2 ∧
        nline.length < xprttcpFields.length + 2) ∨
       (nth? line 1 = some "udp" ∧ xprtudpFields.length ≤ nline.length + 2 ∧
        nline.length < xprtudpFields.length + 2)) →
      parseStat n mp ex v line = .panic) := by
  have h0 : ¬nline.length = 0 := fun h => hne (List.length_eq_zero.mp h)
  refine ⟨?_, ?_, ?_, ?_⟩
  · intro hfb
    unfold parseStat
    rw [hconv]
    dsimp only
    rw [if_neg h0]
    rcases hfb with ⟨hf, hlen⟩ | ⟨hf, hlen⟩
    · rw [hf, basicStep_other "events" nline _ _ (by decide) (by decide)]
      dsimp only
      by_cases hful : n.fullstat = true
      · rw [if_pos hful, fullSwitch_events_skip line nline _ _
          (by rw [show eventsFields.length = 27 from rfl] at hlen; omega)]
        dsimp only
        obtain ⟨ms3, hms3, hnames⟩ := opsStep_shape n v "events" nline
          [("mountpoint", mp), ("serverexport", ex)] []
        rw [hms3]
        dsimp only
        refine ⟨ms3, by simp, ?_⟩
        intro m hm
        rw [hnames m hm]
        exact ⟨by decide, by decide⟩
      · rw [if_neg hful]
        exact ⟨[], rfl, by simp⟩
    · rw [hf, basicStep_other "bytes" nline _ _ (by decide) (by decide)]
      dsimp only
      by_cases hful : n.fullstat = true
      · rw [if_pos hful, fullSwitch_bytes_skip line nline _ _
          (by rw [show bytesFields.length = 8 from rfl] at hlen; omega)]
        dsimp only
        obtain ⟨ms3, hms3, hnames⟩ := opsStep_shape n v "bytes" nline
          [("mountpoint", mp), ("serverexport", ex)] []
        rw [hms3]
        dsimp only
        refine ⟨ms3, by simp, ?_⟩
        intro m hm
        rw [hnames m hm]
        exact ⟨by decide, by decide⟩
      · rw [if_neg hful]
        exact ⟨[], rfl, by simp⟩
  · intro hf hcase
    unfold parseStat
    rw [hconv]
    dsimp only
    rw [if_neg h0, hf, basicStep_other "xprt" nline _ _ (by decide) (by decide)]
    dsimp only
    by_cases hful : n.fullstat = true
    · rw [if_pos hful]
      have hfs : fullSwitch "xprt" line nline
          [("mountpoint", mp), ("serverexport", ex)] [] = some ([], []) := by
        rcases hcase with ⟨ht, hlen⟩ | ⟨ht, hlen⟩
        · exact fullSwitch_xprt_tcp_skip line nline _ _ ht
            (by rw [show xprttcpFields.length = 9 from rfl] at hlen; omega)
        · exact fullSwitch_xprt_udp_skip line nline _ _ ht
            (by rw [show xprtudpFields.length = 6 from rfl] at hlen; omega)
      rw [hfs]
      dsimp only
      obtain ⟨ms3, hms3, hnames⟩ := opsStep_shape n v "xprt" nline
        [("mountpoint", mp), ("serverexport", ex)] []
      rw [hms3]
      dsimp only
      refine ⟨ms3, by simp, ?_⟩
      intro m hm
      rw [hnames m hm]
      exact ⟨by decide, by decide⟩
    · rw [if_neg hful]
      exact ⟨[], rfl, by simp⟩
  · intro hf hlen
    unfold parseStat
    rw [hconv]
    dsimp only
    rw [if_neg h0, basicStep_panic (firstOf line) nline _ _ hf hne hlen]
  · intro hful hf hcase
    unfold parseStat
    rw [hconv]
    dsimp only
    rw [if_neg h0, hf, basicStep_other "xprt" nline _ _ (by decide) (by decide)]
    dsimp only
    rw [if_pos hful]
    have hfs : fullSwitch "xprt" line nline
        [("mountpoint", mp), ("serverexport", ex)] [] = none := by
      rcases hcase with ⟨ht, hg, hlen⟩ | ⟨ht, hg, hlen⟩
      · exact fullSwitch_xprt_tcp_panic line nline _ _ ht
          (by rw [show xprttcpFields.length = 9 from rfl] at hg; omega)
          (by rw [show xprttcpFields.length = 9 from rfl] at hlen; omega)
      · exact fullSwitch_xprt_udp_panic line nline _ _ ht
          (by rw [show xprtudpFields.length = 6 from rfl] at hg; omega)
          (by rw [show xprtudpFields.length = 6 from rfl] at hlen; omega)
    rw [hfs]

/-- C1 counterexample: a `READ` line with 2 numeric fields, and an `xprt
tcp` line passing the reversed guard with 8 numeric fields, make
`parseStat` panic instead of skipping the category's emission. -/
theorem c1_insufficient_fields_cex :
    parseStat cfgBasic "/mnt" "/export" "3" ["READ", "1", "2"] = .panic ∧
    parseStat cfgFull "/mnt" "/export" "3"
      ["xprt", "tcp", "1", "2", "3", "4", "5", "6", "7"] = .panic := by
  decide

/-- C1 witness: concrete instances exercising the amended claim. -/
theorem c1_insufficient_fields_witness :
    convertToUint64 ["events", "1"] = .ok [1] ∧
    (∃ ms, parseStat cfgFull "/mnt" "/export" "3" ["events", "1"] = .ok ms ∧
      ∀ m ∈ ms, m.name ≠ "nfs_events" ∧ m.name ≠ "nfs_bytes") ∧
    parseStat cfgBasic "/mnt" "/export" "3" ["READ", "1", "2"] = .panic := by
  refine ⟨by decide, ?_, ?_⟩
  · exact (c1_insufficient_fields cfgFull "/mnt" "/export" "3" ["events", "1"] [1]
      (by decide) (by decide)).1 (Or.inl ⟨by decide, by decide⟩)
  · exact (c1_insufficient_fields cfgBasic "/mnt" "/export" "3" ["READ", "1", "2"] [1, 2]
      (by decide) (by decide)).2.2.1 (Or.inl (by decide)) (by decide)

/-- C2 counterexample: on the spec's scenario input the single emitted
metric carries rtt 5, exe 0 and rtt_per_op 1/2 — not rtt 50, exe 5 and
rtt_per_op 5.0 as claimed. -/
theorem c2_scenario_counterexample :
    processText cfgBasic c2lines = .ok [c2metric] ∧
    getKV "rtt" c2metric.fields = some (.u 5) ∧
    getKV "exe" c2metric.fields = some (.u 0) ∧
    getKV "rtt_per_op" c2metric.fields = some (.q (mkRat 1 2)) ∧
    some (FVal.u 5) ≠ some (FVal.u 50) ∧
    some (FVal.u 0) ≠ some (FVal.u 5) ∧
    some (FVal.q (mkRat 1 2)) ≠ some (FVal.q (mkRat 5 1)) := by
  decide

/-- C2 (amended): the scenario input yields exactly one basic metric
`nfsstat` tagged mountpoint `/mnt`, serverexport `/export`, operation
`READ`, with fields ops 10, retrans 0, bytes 100, rtt 5, exe 0 and
rtt_per_op 0.5 — rtt and exe are the 7th and 8th numeric fields
(`nline[6]`, `nline[7]`). -/
theorem c2_scenario_actual : processText cfgBasic c2lines = .ok [c2metric] := by
  decide

/-- C3: a numeric token exceeding `2^64-1` in a statistics line makes
`convertToUint64` fail with the overflow-class `errrange` error, makes
`parseStat` return that error for the line, and aborts an unfiltered scan
at that point with the wrapped error. -/
theorem c3_overflow_aborts_scan (n : NFSClient) (st : ScanState) (ℓ : String)
    (rest : List String) (tok : String)
    (hmem : tok ∈ (strFields ℓ).drop 1)
    (hrange : parseUint64 tok = .error .rangeErr) :
    convertToUint64 (strFields ℓ) = .error "errrange" ∧
    (∀ mp ex v, parseStat n mp ex v (strFields ℓ) = .err "errrange") ∧
    (isBlockStart (strFields ℓ) = false → isVersionLine (strFields ℓ) = false →
      st.mount ≠ "" → lineSkip n st.mount = false →
      processFrom n (ℓ :: rest) st = .err "could not parseStat: errrange") := by
  have hlen2 : 2 ≤ (strFields ℓ).length := by
    by_contra hl
    push_neg at hl
    rw [List.drop_eq_nil_of_le (by omega)] at hmem
    exact nomatch hmem
  have hconv : convertToUint64 (strFields ℓ) = .error "errrange" := by
    unfold convertToUint64
    rw [if_neg (by omega)]
    exact convertList_err_of_range _ tok hmem hrange
  have hps : ∀ mp ex v, parseStat n mp ex v (strFields ℓ) = .err "errrange" := by
    intro mp ex v
    unfold parseStat
    rw [hconv]
  refine ⟨hconv, hps, ?_⟩
  intro hb hv hm hskip
  simp only [processFrom]
  rw [if_neg (by
      intro he
      rw [List.isEmpty_iff] at he
      rw [he] at hlen2
      exact absurd hlen2 (by simp)),
    updateState_id st _ hb hv]
  dsimp only
  rw [if_neg hm, if_neg (by rw [hskip]; simp), hps]
  rfl

/-- C3 witness: a READ line with the token `18446744073709551616`. -/
theorem c3_overflow_witness :
    convertToUint64 (strFields "READ 18446744073709551616 2") = .error "errrange" ∧
    processFrom cfgBasic ["READ 18446744073709551616 2"]
      ⟨"/mnt", "/export", "3"⟩ = .err "could not parseStat: errrange" := by
  have h := c3_overflow_aborts_scan cfgBasic ⟨"/mnt", "/export", "3"⟩
    "READ 18446744073709551616 2" [] "18446744073709551616" (by decide) (by decide)
  exact ⟨h.1, h.2.2 (by decide) (by decide) (by decide) (by decide)⟩

/-- C4 counterexample: with include list `["FOO"]` the name `FOO` is
tracked for both NFS versions although it is outside both vocabularies. -/
theorem c4_vocabulary_counterexample :
    (initOps nfs3Fields ["FOO"] []).contains "FOO" = true ∧
    nfs3Fields.contains "FOO" = false ∧
    (initOps nfs4Fields ["FOO"] []).contains "FOO" = true ∧
    nfs4Fields.contains "FOO" = false := by
  decide

/-- C4 (amended): with a non-empty include list, an operation name is
tracked for a version iff it is in the include list and not in the exclude
list; the include list is not intersected with the version vocabulary. -/
theorem c4_include_exclude_tracking (includeOps excludeOps : List String)
    (op : String) (hne : includeOps ≠ []) :
    ((initOps nfs3Fields includeOps excludeOps).contains op = true ↔
      (includeOps.contains op = true ∧ excludeOps.contains op = false)) ∧
    ((initOps nfs4Fields includeOps excludeOps).contains op = true ↔
      (includeOps.contains op = true ∧ excludeOps.contains op = false)) := by
  have hlen : ¬includeOps.length = 0 := fun h => hne (List.length_eq_zero.mp h)
  have key : ∀ defaults : List String,
      (initOps defaults includeOps excludeOps).contains op = true ↔
        (includeOps.contains op = true ∧ excludeOps.contains op = false) := by
    intro defaults
    unfold initOps
    rw [if_neg hlen]
    constructor
    · intro h
      obtain ⟨hmem, hfilter⟩ := List.mem_filter.mp (List.elem_iff.mp h)
      refine ⟨List.elem_iff.mpr hmem, ?_⟩
      rw [← Bool.not_eq_true]
      intro hx
      rw [hx] at hfilter
      exact absurd hfilter (by simp)
    · rintro ⟨h1, h2⟩
      exact List.elem_iff.mpr
        (List.mem_filter.mpr ⟨List.elem_iff.mp h1,
          by rw [Bool.not_eq_true']; exact h2⟩)
  exact ⟨key nfs3Fields, key nfs4Fields⟩

/-- C4 witness: include `["GETATTR", "FOO"]`, exclude `["FOO"]`. -/
theorem c4_tracking_witness :
    (initOps nfs3Fields ["GETATTR", "FOO"] ["FOO"]).contains "GETATTR" = true ∧
    (initOps nfs3Fields ["GETATTR", "FOO"] ["FOO"]).contains "FOO" = false := by
  constructor
  · exact (c4_include_exclude_tracking ["GETATTR", "FOO"] ["FOO"] "GETATTR"
      (by decide)).1.mpr ⟨by decide, by decide⟩
  · cases hx : (initOps nfs3Fields ["GETATTR", "FOO"] ["FOO"]).contains "FOO" with
    | false => rfl
    | true =>
      have h2 := (c4_include_exclude_tracking ["GETATTR", "FOO"] ["FOO"] "FOO"
        (by decide)).1.mp hx
      exact absurd h2.2 (by decide)

/-- C5: when no token of a line range-overflows, conversion of the whole
line succeeds with every otherwise-unparsable token kept as zero at its
position, and `parseStat` never returns an error for the line. -/
theorem c5_nonrange_swallowed (line : List String)
    (hnr : ∀ tok ∈ line.drop 1, parseUint64 tok ≠ .error .rangeErr) :
    convertToUint64 line = .ok ((line.drop 1).map (fun tok =>
      match parseUint64 tok with | .ok v => v | .error _ => 0)) ∧
    ∀ (n : NFSClient) (mp ex v s : String), parseStat n mp ex v line ≠ .err s := by
  have hc : convertToUint64 line = .ok ((line.drop 1).map (fun tok =>
      match parseUint64 tok with | .ok v => v | .error _ => 0)) := by
    unfold convertToUint64
    split
    next hlt =>
      rcases line with _ | ⟨x, xs⟩
      · rfl
      · rcases xs with _ | ⟨y, ys⟩
        · rfl
        · simp at hlt; omega
    next => exact convertList_ok_of_no_range _ hnr
  exact ⟨hc, fun n mp ex v s => parseStat_ne_err n mp ex v line _ hc s⟩

/-- C5 witness: the token `abc` is swallowed as zero. -/
theorem c5_swallow_witness :
    convertToUint64 ["foo", "12", "abc"] = .ok [12, 0] ∧
    ∀ s, parseStat cfgBasic "/mnt" "/export" "3" ["foo", "12", "abc"] ≠ .err s := by
  have h := c5_nonrange_swallowed ["foo", "12", "abc"] (by decide)
  exact ⟨h.1.trans (by decide), fun s => h.2 cfgBasic "/mnt" "/export" "3" s⟩

/-- C6: the mount filter accepts a mount iff the include set is empty or
some include pattern matches, and no exclude pattern matches; a line whose
current mount is rejected is skipped entirely and contributes no metric. -/
theorem c6_mount_filter (n : NFSClient) (mount : String) :
    (lineSkip n mount = false ↔
      ((n.includeMountRegex = [] ∨ ∃ r ∈ n.includeMountRegex, r mount = true) ∧
        ∀ r ∈ n.excludeMountRegex, r mount = false)) ∧
    (∀ (st st' : ScanState) (ℓ : String) (rest : List String),
      updateState st (strFields ℓ) = some st' → (strFields ℓ).isEmpty = false →
      st'.mount = mount → mount ≠ "" → lineSkip n mount = true →
      processFrom n (ℓ :: rest) st = processFrom n rest st') := by
  constructor
  · constructor
    · intro h
      constructor
      · by_cases hi : n.includeMountRegex = []
        · exact Or.inl hi
        · right
          by_contra hno
          push_neg at hno
          have hany : n.includeMountRegex.any (fun r => r mount) = false := by
            rw [← Bool.not_eq_true, List.any_eq_true]
            rintro ⟨r, hr, hrm⟩
            exact absurd hrm (by simp [hno r hr])
          unfold lineSkip at h
          rw [if_pos (by
            simp only [hany, Bool.not_false, Bool.and_true, decide_eq_true_eq]
            exact List.length_pos.mpr hi)] at h
          exact absurd h (by simp)
      · intro r hr
        unfold lineSkip at h
        split at h
        · exact absurd h (by simp)
        · rw [← Bool.not_eq_true]
          intro hrm
          have hx : n.excludeMountRegex.any (fun r => r mount) = true :=
            List.any_eq_true.mpr ⟨r, hr, hrm⟩
          rw [hx] at h
          exact absurd h (by simp)
    · rintro ⟨hinc, hexc⟩
      unfold lineSkip
      have hany : n.excludeMountRegex.any (fun r => r mount) = false := by
        rw [← Bool.not_eq_true, List.any_eq_true]
        rintro ⟨r, hr, hrm⟩
        rw [hexc r hr] at hrm
        exact absurd hrm (by simp)
      rw [if_neg, hany]
      rcases hinc with hnil | ⟨r, hr, hrm⟩
      · simp [hnil]
      · have hx : n.includeMountRegex.any (fun r => r mount) = true :=
          List.any_eq_true.mpr ⟨r, hr, hrm⟩
        simp [hx]
  · intro st st' ℓ rest hupd hne hmount hmne hskip
    simp only [processFrom]
    rw [if_neg (by simp [hne]), hupd]
    dsimp only
    rw [if_neg (by rw [hmount]; exact hmne),
      if_pos (by rw [hmount]; exact hskip)]

/-- C6 witness: a mount matching no include pattern is skipped even for a
line that would otherwise fault. -/
theorem c6_filter_witness :
    lineSkip cfgFiltered "/drop" = true ∧
    (lineSkip cfgFiltered "/keep" = false ↔
      ((cfgFiltered.includeMountRegex = [] ∨
        ∃ r ∈ cfgFiltered.includeMountRegex, r "/keep" = true) ∧
       ∀ r ∈ cfgFiltered.excludeMountRegex, r "/keep" = false)) ∧
    processFrom cfgFiltered ["READ 1 2 3 4 5 6 7 8"]
      ⟨"/drop", "/export", "3"⟩ = .ok [] := by
  refine ⟨by decide, (c6_mount_filter cfgFiltered "/keep").1, ?_⟩
  have h := (c6_mount_filter cfgFiltered "/drop").2 ⟨"/drop", "/export", "3"⟩
    ⟨"/drop", "/export", "3"⟩ "READ 1 2 3 4 5 6 7 8" [] (by decide) (by decide)
    rfl (by decide) (by decide)
  exact h.trans rfl

/-- C7: a statistics line observed while the mount is still empty is
discarded: the scan continues on the remaining lines with unchanged state,
with no filtering, conversion, classification or metric emission. -/
theorem c7_discard_before_mount (n : NFSClient) (st : ScanState) (ℓ : String)
    (rest : List String) (hm : st.mount = "")
    (hb : isBlockStart (strFields ℓ) = false)
    (hv : isVersionLine (strFields ℓ) = false) :
    processFrom n (ℓ :: rest) st = processFrom n rest st := by
  simp only [processFrom]
  by_cases he : (strFields ℓ).isEmpty = true
  · rw [if_pos he]
  · rw [if_neg he, updateState_id st _ hb hv]
    dsimp only
    rw [if_pos hm]

/-- C7 witness: a READ line before any mount is set emits nothing (the
line would panic if it were classified). -/
theorem c7_discard_witness :
    processFrom cfgBasic ["READ 1 2 3 4 5 6 7 8"] ⟨"", "", ""⟩ = .ok [] := by
  have h := c7_discard_before_mount cfgBasic ⟨"", "", ""⟩
    "READ 1 2 3 4 5 6 7 8" [] rfl (by decide) (by decide)
  exact h.trans rfl

/-- C8: a line containing `(nfs)` with more than 5 tokens whose token at
index 5 contains no `/` makes the scan panic — element 1 of a one-element
split does not exist — instead of completing or returning an error. -/
theorem c8_version_split_panics :
    processText cfgBasic ["RPC iostats version: 1.1 p/v: 100003 (nfs)"] = .panic ∧
    (strFields "RPC iostats version: 1.1 p/v: 100003 (nfs)").contains "(nfs)" = true ∧
    5 < (strFields "RPC iostats version: 1.1 p/v: 100003 (nfs)").length ∧
    nth? (strFields "RPC iostats version: 1.1 p/v: 100003 (nfs)") 5 = some "100003" ∧
    splitStr (fun c => c == '/') "100003" = ["100003"] := by
  decide

/-- C9: for a READ/WRITE line in full-statistics mode whose operation is
tracked for the current version, the per-operation `nfs_ops` metric reuses
the field map already populated by the basic category: it still holds
retrans, bytes, rtt, exe and rtt_per_op with the basic values, besides the
up-to-9 positionally named operation fields. -/
theorem c9_ops_metric_shares_basic_fields (n : NFSClient) (mp ex v : String)
    (line : List String) (a b c d e f g h : Nat) (tail : List Nat)
    (nline : List Nat)
    (hful : n.fullstat = true)
    (hconv : convertToUint64 line = .ok nline)
    (hsh : nline = a :: b :: c :: d :: e :: f :: g :: h :: tail)
    (htail : tail.length ≤ 1)
    (hfirst : firstOf line = "READ" ∨ firstOf line = "WRITE")
    (htrack : (v = "3" ∧ n.nfs3Ops.contains (firstOf line) = true) ∨
              (v = "4" ∧ n.nfs4Ops.contains (firstOf line) = true)) :
    ∃ tgs fsB fsO,
      parseStat n mp ex v line =
        .ok [⟨"nfsstat", tgs, fsB⟩, ⟨"nfs_ops", tgs, fsO⟩] ∧
      getKV "retrans" fsO = getKV "retrans" fsB ∧
      (getKV "retrans" fsB).isSome = true ∧
      getKV "bytes" fsO = getKV "bytes" fsB ∧
      (getKV "bytes" fsB).isSome = true ∧
      getKV "rtt" fsO = getKV "rtt" fsB ∧
      (getKV "rtt" fsB).isSome = true ∧
      getKV "exe" fsO = getKV "exe" fsB ∧
      (getKV "exe" fsB).isSome = true ∧
      getKV "rtt_per_op" fsO = getKV "rtt_per_op" fsB ∧
      (getKV "rtt_per_op" fsB).isSome = true ∧
      getKV "ops" fsO = some (.u a) ∧
      getKV "trans" fsO = some (.u b) ∧
      getKV "timeouts" fsO = some (.u c) ∧
      getKV "bytes_sent" fsO = some (.u d) ∧
      getKV "bytes_recv" fsO = some (.u e) ∧
      getKV "queue_time" fsO = some (.u f) ∧
      getKV "response_time" fsO = some (.u g) ∧
      getKV "total_time" fsO = some (.u h) ∧
      (∀ x, tail = [x] → getKV "errors" fsO = some (.u x)) ∧
      (tail = [] → getKV "errors" fsO = none) := by
  rcases tail with _ | ⟨i9, _ | ⟨j9, t9⟩⟩
  case cons.cons => simp at htail
  case nil =>
    subst hsh
    have hbool : (firstOf line == "READ" || firstOf line == "WRITE") = true := by
      rcases hfirst with hf | hf <;> rw [hf] <;> rfl
    unfold parseStat
    rw [hconv]
    dsimp only
    rw [if_neg (by simp),
      basicStep_eq (firstOf line) [a, b, c, d, e, f, g, h]
        _ _ a b d e g h hbool rfl rfl rfl rfl rfl rfl]
    dsimp only
    rw [if_pos hful]
    rcases hfirst with hf | hf
    · rw [hf] at htrack ⊢
      rw [fullSwitch_other _ line _ _ _ (by decide) (by decide) (by decide)]
      dsimp only
      rcases htrack with ⟨hv, hc⟩ | ⟨hv, hc⟩ <;> subst hv
      · rw [opsStep_8 n "3" "READ" _ _ a b c d e f g h (by rw [hc]; rfl)]
        dsimp only
        simp only [List.singleton_append, List.nil_append]
        refine ⟨_, _, _, rfl, ?_⟩
        simp [getKV_setKV_same, getKV_setKV_ne, getKV_nil]
      · rw [opsStep_8 n "4" "READ" _ _ a b c d e f g h (by rw [hc]; rfl)]
        dsimp only
        simp only [List.singleton_append, List.nil_append]
        refine ⟨_, _, _, rfl, ?_⟩
        simp [getKV_setKV_same, getKV_setKV_ne, getKV_nil]
    · rw [hf] at htrack ⊢
      rw [fullSwitch_other _ line _ _ _ (by decide) (by decide) (by decide)]
      dsimp only
      rcases htrack with ⟨hv, hc⟩ | ⟨hv, hc⟩ <;> subst hv
      · rw [opsStep_8 n "3" "WRITE" _ _ a b c d e f g h (by rw [hc]; rfl)]
        dsimp only
        simp only [List.singleton_append, List.nil_append]
        refine ⟨_, _, _, rfl, ?_⟩
        simp [getKV_setKV_same, getKV_setKV_ne, getKV_nil]
      · rw [opsStep_8 n "4" "WRITE" _ _ a b c d e f g h (by rw [hc]; rfl)]
        dsimp only
        simp only [List.singleton_append, List.nil_append]
        refine ⟨_, _, _, rfl, ?_⟩
        simp [getKV_setKV_same, getKV_setKV_ne, getKV_nil]
  case cons.nil =>
    subst hsh
    have hbool : (firstOf line == "READ" || firstOf line == "WRITE") = true := by
      rcases hfirst with hf | hf <;> rw [hf] <;> rfl
    unfold parseStat
    rw [hconv]
    dsimp only
    rw [if_neg (by simp),
      basicStep_eq (firstOf line) [a, b, c, d, e, f, g, h, i9]
        _ _ a b d e g h hbool rfl rfl rfl rfl rfl rfl]
    dsimp only
    rw [if_pos hful]
    rcases hfirst with hf | hf
    · rw [hf] at htrack ⊢
      rw [fullSwitch_other _ line _ _ _ (by decide) (by decide) (by decide)]
      dsimp only
      rcases htrack with ⟨hv, hc⟩ | ⟨hv, hc⟩ <;> subst hv
      · rw [opsStep_9 n "3" "READ" _ _ a b c d e f g h i9 (by rw [hc]; rfl)]
        dsimp only
        simp only [List.singleton_append, List.nil_append]
        refine ⟨_, _, _, rfl, ?_⟩
        simp [getKV_setKV_same, getKV_setKV_ne, getKV_nil]
      · rw [opsStep_9 n "4" "READ" _ _ a b c d e f g h i9 (by rw [hc]; rfl)]
        dsimp only
        simp only [List.singleton_append, List.nil_append]
        refine ⟨_, _, _, rfl, ?_⟩
        simp [getKV_setKV_same, getKV_setKV_ne, getKV_nil]
    · rw [hf] at htrack ⊢
      rw [fullSwitch_other _ line _ _ _ (by decide) (by decide) (by decide)]
      dsimp only
      rcases htrack with ⟨hv, hc⟩ | ⟨hv, hc⟩ <;> subst hv
      · rw [opsStep_9 n "3" "WRITE" _ _ a b c d e f g h i9 (by rw [hc]; rfl)]
        dsimp only
        simp only [List.singleton_append, List.nil_append]
        refine ⟨_, _, _, rfl, ?_⟩
        simp [getKV_setKV_same, getKV_setKV_ne, getKV_nil]
      · rw [opsStep_9 n "4" "WRITE" _ _ a b c d e f g h i9 (by rw [hc]; rfl)]
        dsimp only
        simp only [List.singleton_append, List.nil_append]
        refine ⟨_, _, _, rfl, ?_⟩
        simp [getKV_setKV_same, getKV_setKV_ne, getKV_nil]

/-- C9 witness: a READ line with 8 numeric fields, NFSv3, default
tables. -/
theorem c9_shared_fields_witness :
    ∃ tgs fsB fsO,
      parseStat cfgFull "/mnt" "/export" "3"
          ["READ", "10", "10", "0", "100", "0", "50", "5", "0"] =
        .ok [⟨"nfsstat", tgs, fsB⟩, ⟨"nfs_ops", tgs, fsO⟩] ∧
      getKV "retrans" fsO = getKV "retrans" fsB ∧
      (getKV "retrans" fsB).isSome = true ∧
      getKV "bytes" fsO = getKV "bytes" fsB ∧
      (getKV "bytes" fsB).isSome = true ∧
      getKV "rtt" fsO = getKV "rtt" fsB ∧
      (getKV "rtt" fsB).isSome = true ∧
      getKV "exe" fsO = getKV "exe" fsB ∧
      (getKV "exe" fsB).isSome = true ∧
      getKV "rtt_per_op" fsO = getKV "rtt_per_op" fsB ∧
      (getKV "rtt_per_op" fsB).isSome = true ∧
      getKV "ops" fsO = some (.u 10) ∧
      getKV "trans" fsO = some (.u 10) ∧
      getKV "timeouts" fsO = some (.u 0) ∧
      getKV "bytes_sent" fsO = some (.u 100) ∧
      getKV "bytes_recv" fsO = some (.u 0) ∧
      getKV "queue_time" fsO = some (.u 50) ∧
      getKV "response_time" fsO = some (.u 5) ∧
      getKV "total_time" fsO = some (.u 0) ∧
      (∀ x, ([] : List Nat) = [x] → getKV "errors" fsO = some (.u x)) ∧
      (([] : List Nat) = [] → getKV "errors" fsO = none) :=
  c9_ops_metric_shares_basic_fields cfgFull "/mnt" "/export" "3"
    ["READ", "10", "10", "0", "100", "0", "50", "5", "0"]
    10 10 0 100 0 50 5 0 [] [10, 10, 0, 100, 0, 50, 5, 0]
    (by decide) (by decide) rfl (by decide) (Or.inl (by decide))
    (Or.inl ⟨rfl, by decide⟩)

/-- C10: on a READ/WRITE line with `field[1] < field[0]`, the basic
retrans field is the unsigned wraparound `(field[1] - field[0]) mod 2^64 =
2^64 - (field[0] - field[1])`, a huge nonzero value. -/
theorem c10_retrans_wraparound (n : NFSClient) (mp ex v : String)
    (line : List String) (a b : Nat) (tail : List Nat) (nline : List Nat)
    (hconv : convertToUint64 line = .ok nline)
    (hsh : nline = a :: b :: tail) (hlen : 6 ≤ tail.length)
    (hfirst : firstOf line = "READ" ∨ firstOf line = "WRITE")
    (hba : b < a) :
    ∃ m rest2, parseStat n mp ex v line = .ok (m :: rest2) ∧
      m.name = "nfsstat" ∧
      getKV "retrans" m.fields = some (.u (u64sub b a)) ∧
      u64sub b a = (((b : ℤ) - (a : ℤ)) % ((2 : ℤ) ^ 64)).toNat ∧
      u64sub b a = 2 ^ 64 - (a - b) ∧
      u64sub b a ≠ 0 := by
  have ha : a ≤ U64Max :=
    convertToUint64_le line nline hconv a (by rw [hsh]; exact List.mem_cons_self a _)
  have ha' : a ≤ 18446744073709551615 := ha
  have hvalue : u64sub b a = 2 ^ 64 + b - a := by
    unfold u64sub
    omega
  rcases tail with _ | ⟨t0, tail⟩; · simp at hlen
  rcases tail with _ | ⟨t1, tail⟩; · simp at hlen
  rcases tail with _ | ⟨t2, tail⟩; · simp at hlen
  rcases tail with _ | ⟨t3, tail⟩; · simp at hlen
  rcases tail with _ | ⟨t4, tail⟩; · simp at hlen
  rcases tail with _ | ⟨t5, tail⟩; · simp at hlen
  subst hsh
  have hbool : (firstOf line == "READ" || firstOf line == "WRITE") = true := by
    rcases hfirst with hf | hf <;> rw [hf] <;> rfl
  have hne0 : ¬(a :: b :: t0 :: t1 :: t2 :: t3 :: t4 :: t5 :: tail).length = 0 := by
    simp
  have hnum : u64sub b a = (((b : ℤ) - (a : ℤ)) % ((2 : ℤ) ^ 64)).toNat ∧
      u64sub b a = 2 ^ 64 - (a - b) ∧ u64sub b a ≠ 0 := by
    refine ⟨?_, by omega, by omega⟩
    rw [hvalue]
    omega
  unfold parseStat
  rw [hconv]
  dsimp only
  rw [if_neg hne0,
    basicStep_eq (firstOf line) (a :: b :: t0 :: t1 :: t2 :: t3 :: t4 :: t5 :: tail)
      _ _ a b t1 t2 t4 t5 hbool rfl rfl rfl rfl rfl rfl]
  dsimp only
  by_cases hful : n.fullstat = true
  · rw [if_pos hful]
    rcases hfirst with hf | hf <;>
      rw [hf, fullSwitch_other _ line _ _ _ (by decide) (by decide) (by decide)] <;>
      dsimp only
    · obtain ⟨ms3, hms3, _⟩ := opsStep_shape n v "READ"
        (a :: b :: t0 :: t1 :: t2 :: t3 :: t4 :: t5 :: tail) _ _
      rw [hms3]
      dsimp only
      simp only [List.singleton_append, List.nil_append]
      exact ⟨_, _, rfl, rfl, rfl, hnum.1, hnum.2.1, hnum.2.2⟩
    · obtain ⟨ms3, hms3, _⟩ := opsStep_shape n v "WRITE"
        (a :: b :: t0 :: t1 :: t2 :: t3 :: t4 :: t5 :: tail) _ _
      rw [hms3]
      dsimp only
      simp only [List.singleton_append, List.nil_append]
      exact ⟨_, _, rfl, rfl, rfl, hnum.1, hnum.2.1, hnum.2.2⟩
  · rw [if_neg hful]
    exact ⟨_, [], rfl, rfl, rfl, hnum.1, hnum.2.1, hnum.2.2⟩

/-- C10 witness: a READ line with fields 10 and 3, giving retrans
`2^64 - 7`. -/
theorem c10_wraparound_witness :
    ∃ m rest2,
      parseStat cfgBasic "/mnt" "/export" "3"
          ["READ", "10", "3", "0", "0", "0", "0", "5", "7"] = .ok (m :: rest2) ∧
      m.name = "nfsstat" ∧
      getKV "retrans" m.fields = some (.u (u64sub 3 10)) ∧
      u64sub 3 10 = (((3 : ℤ) - (10 : ℤ)) % ((2 : ℤ) ^ 64)).toNat ∧
      u64sub 3 10 = 2 ^ 64 - (10 - 3) ∧
      u64sub 3 10 ≠ 0 :=
  c10_retrans_wraparound cfgBasic "/mnt" "/export" "3"
    ["READ", "10", "3", "0", "0", "0", "0", "5", "7"]
    10 3 [0, 0, 0, 0, 5, 7] [10, 3, 0, 0, 0, 0, 5, 7]
    (by decide) rfl (by decide) (Or.inl (by decide)) (by decide)
